import Mathlib

/-!
Verification development for the lava link-processing pipeline.

The definitions below are a shallow embedding of the TypeScript sources
`src/utils.ts` (classes `LinkUtils` and `FileUtils`), `src/processor.ts`
(class `LinkProcessor`) and `src/server.ts` (class `LavaServer`).

Modelling conventions:
- JavaScript strings are Lean `String`; most computation happens on the
  underlying `List Char`.
- The WHATWG `new URL(...)` platform builtin is modelled by `urlParse` /
  `urlResolve` for absolute `http(s)` URLs and relative references against
  them (lower-cased host, default-port elision, `/`-normalised paths with
  dot-segment removal, spaces percent-encoded as `%20` in path and query,
  tab/LF/CR stripped from the input, `searchParams` values form-decoded).
  Non-http(s) schemes, user-info and IPv6 hosts are out of the modelled
  scope and parse as failures; no claim depends on them.
- Network and rendering effects (puppeteer page rendering, `fetch`,
  Defuddle extraction, the YouTube oEmbed title lookup) are oracles
  collected in an `Env` value; the current date used for the `clipped`
  frontmatter field is the oracle `Env.today`.
- Disk persistence (`writeFileSync` and path handling) is outside the
  modelled state; it does not influence any value the claims are about.
-/

set_option maxRecDepth 4000

/-- JavaScript whitespace predicate: the character class `\s` of JS regexes,
which is also the set trimmed by `String.prototype.trim`. -/
def jsWs (c : Char) : Bool :=
  c == ' ' || c == '\t' || c == '\n' || c == '\r' || c == '\x0b' || c == '\x0c' ||
  c == '\u00A0' || c == '\u1680' || c == '\u2000' || c == '\u2001' || c == '\u2002' ||
  c == '\u2003' || c == '\u2004' || c == '\u2005' || c == '\u2006' || c == '\u2007' ||
  c == '\u2008' || c == '\u2009' || c == '\u200A' || c == '\u2028' || c == '\u2029' ||
  c == '\u202F' || c == '\u205F' || c == '\u3000' || c == '\uFEFF'

/-- Drop trailing JS whitespace from a character list. -/
def dropTrailWs (l : List Char) : List Char :=
  (l.reverse.dropWhile jsWs).reverse

/-- Model of `String.prototype.trim`. -/
def jsTrim (s : String) : String :=
  String.mk (dropTrailWs (s.data.dropWhile jsWs))

/-- Model of `s.startsWith(p)` on JS strings. -/
def strStarts (s p : String) : Bool :=
  p.data.isPrefixOf s.data

/-- Model of `s.endsWith(p)` on JS strings. -/
def strEnds (s p : String) : Bool :=
  p.data.isSuffixOf s.data

/-- Naive substring test (used to state "the text contains ..." facts about
concrete documents). -/
def strHasSub (s sub : String) : Bool :=
  (List.range (s.data.length + 1)).any (fun i => sub.data.isPrefixOf (s.data.drop i))

/-- Containment of one string in another, as a proposition. -/
def StrContains (s sub : String) : Prop :=
  ∃ a b, s.data = a ++ sub.data ++ b

/-- ASCII lower-casing of one character (model of `toLowerCase` for the
ASCII range, which is all the code compares against). -/
def asciiLower (c : Char) : Char :=
  if 65 ≤ c.toNat ∧ c.toNat ≤ 90 then Char.ofNat (c.toNat + 32) else c

/-- ASCII lower-casing of a character list. -/
def lowerStr (l : List Char) : List Char :=
  l.map asciiLower

/-- Split a character list at every occurrence of a separator character.
Never returns the empty list. -/
def splitCh (sep : Char) : List Char → List (List Char)
  | [] => [[]]
  | c :: t =>
    if c = sep then [] :: splitCh sep t
    else
      match splitCh sep t with
      | [] => [[c]]
      | h :: r => (c :: h) :: r

/-- Value of a hexadecimal digit. -/
def hexVal (c : Char) : Option Nat :=
  if 48 ≤ c.toNat ∧ c.toNat ≤ 57 then some (c.toNat - 48)
  else if 97 ≤ c.toNat ∧ c.toNat ≤ 102 then some (c.toNat - 87)
  else if 65 ≤ c.toNat ∧ c.toNat ≤ 70 then some (c.toNat - 55)
  else none

/-- Decoding of `application/x-www-form-urlencoded` text, as used by
`URLSearchParams` (`+` means space, `%hh` is a byte; multi-byte UTF-8
sequences are out of the modelled scope). -/
def formDecode : List Char → List Char
  | [] => []
  | '+' :: t => ' ' :: formDecode t
  | '%' :: a :: b :: t =>
    match hexVal a, hexVal b with
    | some x, some y => Char.ofNat (16 * x + y) :: formDecode t
    | _, _ => '%' :: formDecode (a :: b :: t)
  | c :: t => c :: formDecode t

/-- Percent-encode spaces as `%20` (the fragment of the WHATWG path and
query percent-encode sets the claims exercise). -/
def encSpaces (l : List Char) : List Char :=
  (l.map (fun c => if c = ' ' then ['%', '2', '0'] else [c])).flatten

/-- Parsed `http(s)` URL: the observable fields of a WHATWG `URL` object the
code reads (`hostname`, `pathname`, `searchParams`, `href`). -/
structure UrlM where
  scheme : String
  host : String
  port : Option String
  path : String
  query : Option String
  fragment : Option String
deriving DecidableEq, Repr

/-- WHATWG input preprocessing: strip leading/trailing C0-control-or-space
and remove every interior tab, LF and CR. -/
def stripCtl (s : String) : List Char :=
  let l := (s.data.dropWhile (fun c => c.toNat ≤ 32)).reverse.dropWhile
      (fun c => c.toNat ≤ 32) |>.reverse
  l.filter (fun c => c ≠ '\t' ∧ c ≠ '\n' ∧ c ≠ '\r')

/-- ASCII alphanumeric test. -/
def isAlnum (c : Char) : Bool :=
  (65 ≤ c.toNat && c.toNat ≤ 90) || (97 ≤ c.toNat && c.toNat ≤ 122) ||
  (48 ≤ c.toNat && c.toNat ≤ 57)

/-- Characters allowed in a URL scheme after the first. -/
def isSchemeChar (c : Char) : Bool :=
  isAlnum c || c == '+' || c == '-' || c == '.'

/-- Characters accepted in a registrable domain by the model. -/
def hostCharOk (c : Char) : Bool :=
  isAlnum c || c == '.' || c == '-' || c == '_'

/-- ASCII digit test. -/
def isDigitCh (c : Char) : Bool :=
  48 ≤ c.toNat && c.toNat ≤ 57

/-- Remove `.` and `..` segments from a serialized path beginning with `/`,
keeping the directory-style trailing slash they leave behind. -/
def removeDotSegments (p : List Char) : List Char :=
  match splitCh '/' p with
  | [] => p
  | _ :: body =>
    let step := fun (acc : List (List Char)) (seg : List Char) =>
      if seg = ['.'] then acc
      else if seg = ['.', '.'] then acc.dropLast
      else acc ++ [seg]
    let processed := body.foldl step []
    let processed :=
      if body ≠ [] ∧ (body.getLast? = some ['.'] ∨ body.getLast? = some ['.', '.'])
      then processed ++ [[]] else processed
    '/' :: List.intercalate ['/'] processed

/-- Split a character list at the first occurrence of a character, dropping
the separator; `none` when the separator is absent. -/
def splitFirst (sep : Char) (l : List Char) : List Char × Option (List Char) :=
  let before := l.takeWhile (· ≠ sep)
  match l.dropWhile (· ≠ sep) with
  | [] => (before, none)
  | _ :: t => (before, some t)

/-- Parse the path / query / fragment tail following the authority. -/
def parsePQF (rest : List Char) : List Char × Option (List Char) × Option (List Char) :=
  let (beforeHash, frag) := splitFirst '#' rest
  let (rawPath, query) := splitFirst '?' beforeHash
  let path := rawPath.map (fun c => if c = '\\' then '/' else c)
  let path := if path = [] then ['/'] else path
  (encSpaces (removeDotSegments path), query.map encSpaces, frag)

/-- Model of `new URL(s)` for absolute `http(s)` URLs, `none` when the real
constructor throws (or the URL is outside the modelled scope). -/
def urlParse (s : String) : Option UrlM :=
  let l := stripCtl s
  let schemeChars := l.takeWhile isSchemeChar
  let afterScheme := l.dropWhile isSchemeChar
  match afterScheme with
  | ':' :: rest =>
    let scheme := lowerStr schemeChars
    if scheme ≠ "http".data ∧ scheme ≠ "https".data then none
    else
      let rest := rest.dropWhile (fun c => c = '/' ∨ c = '\\')
      let authority := rest.takeWhile (fun c => c ≠ '/' ∧ c ≠ '\\' ∧ c ≠ '?' ∧ c ≠ '#')
      let tail0 := rest.dropWhile (fun c => c ≠ '/' ∧ c ≠ '\\' ∧ c ≠ '?' ∧ c ≠ '#')
      if authority.contains '@' then none
      else
        let (hostRaw, portRaw) := splitFirst ':' authority
        let host := lowerStr hostRaw
        if host = [] ∨ ¬ host.all hostCharOk then none
        else
          let port : Option (Option String) :=
            match portRaw with
            | none => some none
            | some p =>
              if ¬ p.all isDigitCh then none
              else if p = [] then some none
              else if scheme = "http".data ∧ p = "80".data then some none
              else if scheme = "https".data ∧ p = "443".data then some none
              else some (some (String.mk p))
          match port with
          | none => none
          | some port =>
            let (path, query, frag) := parsePQF tail0
            some ⟨String.mk scheme, String.mk host, port, String.mk path,
                  query.map String.mk, frag.map String.mk⟩
  | _ => none

/-- Serialization of a parsed URL: the `href` property. -/
def urlHref (u : UrlM) : String :=
  u.scheme ++ "://" ++ u.host ++
  (match u.port with | some p => ":" ++ p | none => "") ++
  u.path ++
  (match u.query with | some q => "?" ++ q | none => "") ++
  (match u.fragment with | some f => "#" ++ f | none => "")

/-- Name/value pairs of a query string, as `URLSearchParams` exposes them. -/
def queryPairsL (q : List Char) : List (List Char × List Char) :=
  (splitCh '&' q).filterMap fun kv =>
    if kv = [] then none
    else
      let k := kv.takeWhile (· ≠ '=')
      let v := match kv.dropWhile (· ≠ '=') with
        | [] => []
        | _ :: t => t
      some (formDecode k, formDecode v)

/-- Model of `url.searchParams.has(name)`. -/
def searchHas (u : UrlM) (name : String) : Bool :=
  match u.query with
  | none => false
  | some q => (queryPairsL q.data).any (fun p => p.1 = name.data)

/-- Model of `url.searchParams.get(name)`. -/
def searchGet (u : UrlM) (name : String) : Option String :=
  match u.query with
  | none => none
  | some q => ((queryPairsL q.data).find? (fun p => p.1 = name.data)).map
      (fun p => String.mk p.2)

/-- Model of `url.pathname.split("/").filter(Boolean)`. -/
def pathSegsNE (u : UrlM) : List (List Char) :=
  (splitCh '/' u.path.data).filter (· ≠ [])

/-- Model of `new URL(ref, base).href`, `none` when the constructor throws. -/
def urlResolve (ref : String) (base : String) : Option String :=
  match urlParse ref with
  | some u => some (urlHref u)
  | none =>
    match urlParse base with
    | none => none
    | some b =>
      let l := stripCtl ref
      if "//".data.isPrefixOf l then
        (urlParse (b.scheme ++ ":" ++ String.mk l)).map urlHref
      else
        let (beforeHash, frag) := splitFirst '#' l
        let (pp, q) := splitFirst '?' beforeHash
        let pp := pp.map (fun c => if c = '\\' then '/' else c)
        if pp = [] then
          match q with
          | none => some (urlHref { b with fragment := frag.map String.mk })
          | some qv =>
            some (urlHref { b with query := some (String.mk (encSpaces qv)),
                                   fragment := frag.map String.mk })
        else
          let newPath :=
            if pp.headD ' ' = '/' then encSpaces (removeDotSegments pp)
            else
              let dir := (b.path.data.reverse.dropWhile (· ≠ '/')).reverse
              encSpaces (removeDotSegments (dir ++ pp))
          some (urlHref { b with path := String.mk newPath,
                                 query := (q.map (fun qv => String.mk (encSpaces qv))),
                                 fragment := frag.map String.mk })

/-- Match the literal (case-sensitive) text `https?:\/\/` of the link
regexes in `LinkUtils.sanitizeLink`; returns the matched text and the
remaining characters. -/
def httpLit : List Char → Option (List Char × List Char)
  | 'h' :: 't' :: 't' :: 'p' :: rest =>
    match rest with
    | 's' :: ':' :: '/' :: '/' :: r => some ("https://".data, r)
    | ':' :: '/' :: '/' :: r => some ("http://".data, r)
    | _ => none
  | _ => none

/-- Try the pattern `\((https?:\/\/[^\s)]+)\)` at the head of the input,
returning the captured group. -/
def mdTargetAt (l : List Char) : Option (List Char) :=
  match l with
  | '(' :: r =>
    match httpLit r with
    | some (pre, r2) =>
      let keep := fun c => ¬ jsWs c ∧ c ≠ ')'
      let run := r2.takeWhile keep
      if run = [] then none
      else
        match r2.dropWhile keep with
        | ')' :: _ => some (pre ++ run)
        | _ => none
    | none => none
  | _ => none

/-- Try the pattern `(https?:\/\/[^\s\]]+)` at the head of the input. -/
def bareAt (l : List Char) : Option (List Char) :=
  match httpLit l with
  | some (pre, r) =>
    let keep := fun c => ¬ jsWs c ∧ c ≠ ']'
    let run := r.takeWhile keep
    if run = [] then none else some (pre ++ run)
  | none => none

/-- Regex-engine scan: try a head-anchored matcher at every position, left
to right, and return the first match. -/
def scanFirst (f : List Char → Option (List Char)) : List Char → Option (List Char)
  | [] => f []
  | l@(_ :: t) =>
    match f l with
    | some x => some x
    | none => scanFirst f t

namespace LinkUtils

/-- Deny-listed hosts of `LinkUtils.blockedDomains`. -/
def blockedDomains : List String :=
  ["docs.google.com", "sheets.google.com", "sites.google.com", "drive.google.com"]

/-- Character class `[-\s\[\]x]` stripped from the front of a line. -/
def stripClassCh (c : Char) : Bool :=
  c == '-' || c == '[' || c == ']' || c == 'x' || jsWs c

/-- Model of `LinkUtils.sanitizeLink`: strip list/checkbox decoration, then
prefer a markdown-link target, then the first bare `http(s)` token, else
the trimmed residue. -/
def sanitizeLink (link : String) : String :=
  let trimmed := jsTrim (String.mk (link.data.dropWhile stripClassCh))
  match scanFirst mdTargetAt trimmed.data with
  | some t => String.mk t
  | none =>
    match scanFirst bareAt trimmed.data with
    | some t => String.mk t
    | none => trimmed

/-- Model of `LinkUtils.isBlockedDomain`. -/
def isBlockedDomain (link : String) : Bool :=
  match urlParse link with
  | none => false
  | some u => blockedDomains.any (fun b => u.host = b || strEnds u.host ("." ++ b))

/-- Model of `LinkUtils.getYouTubeId`. -/
def getYouTubeId (link : String) : Option String :=
  match urlParse link with
  | none => none
  | some u =>
    if u.host = "youtu.be" then
      match pathSegsNE u with
      | s :: _ => some (String.mk s)
      | [] => none
    else if strEnds u.host "youtube.com" then
      if searchHas u "v" then searchGet u "v"
      else
        match pathSegsNE u with
        | p0 :: rest =>
          if p0 = "embed".data ∨ p0 = "shorts".data ∨ p0 = "live".data then
            match rest with
            | p1 :: _ => some (String.mk p1)
            | [] => none
          else none
        | [] => none
    else none

/-- JS truthiness of the id returned by `getYouTubeId` (`null` and the
empty string are falsy). -/
def ytTruthy : Option String → Bool
  | some i => i ≠ ""
  | none => false

/-- Model of `LinkUtils.isYouTubeChannel`. -/
def isYouTubeChannel (link : String) : Bool :=
  match urlParse link with
  | none => false
  | some u =>
    if ¬ (u.host = "youtu.be" ∨ strEnds u.host "youtube.com") then false
    else
      match pathSegsNE u with
      | [] => false
      | p0 :: restParts =>
        let first := lowerStr p0
        if first = "channel".data ∨ first = "c".data ∨ first = "user".data then true
        else if strStarts u.path "/@" ∨
            (p0 :: restParts).any (fun seg => "@".data.isPrefixOf seg) then true
        else false

/-- Canonical watch-form URL from a link without an explicit id (the body
of `canonicalizeYouTubeUrl` after its `if (id)` early return). -/
def canonFromLink (link : String) : String :=
  match urlParse link with
  | none => link
  | some u =>
    if searchHas u "v" then
      "https://www.youtube.com/watch?v=" ++ ((searchGet u "v").getD "")
    else if u.host = "youtu.be" then
      match pathSegsNE u with
      | p :: _ => "https://www.youtube.com/watch?v=" ++ String.mk p
      | [] => link
    else
      match pathSegsNE u with
      | p0 :: p1 :: _ =>
        if p0 = "embed".data ∨ p0 = "shorts".data ∨ p0 = "live".data then
          "https://www.youtube.com/watch?v=" ++ String.mk p1
        else link
      | _ => link

/-- Model of `LinkUtils.canonicalizeYouTubeUrl`; the optional `id` argument
is used when JS-truthy, exactly as `if (id)` does. -/
def canonicalizeYouTubeUrl (link : String) (id : Option String) : String :=
  match id with
  | some i => if i ≠ "" then "https://www.youtube.com/watch?v=" ++ i else canonFromLink link
  | none => canonFromLink link

/-- Case-insensitive match of the leading `https?:\/\/` of the URL-validity
regex, returning the remaining characters. -/
def httpCILit (l : List Char) : Option (List Char) :=
  match l with
  | a :: b :: c :: d :: rest =>
    if asciiLower a = 'h' ∧ asciiLower b = 't' ∧ asciiLower c = 't' ∧ asciiLower d = 'p' then
      match rest with
      | ':' :: '/' :: '/' :: r => some r
      | e :: ':' :: '/' :: '/' :: r => if asciiLower e = 's' then some r else none
      | _ => none
    else none
  | _ => none

/-- JS regex line terminators, the characters `.` does not match. -/
def isLineTerm (c : Char) : Bool :=
  c == '\n' || c == '\r' || c == '\u2028' || c == '\u2029'

/-- Model of `LinkUtils.isValidHttpLink`: the regex
`/^https?:\/\/[^\s\/$.?#].[^\s]*$/i`. -/
def isValidHttpLink (link : String) : Bool :=
  match httpCILit link.data with
  | some (c1 :: c2 :: rest) =>
    ¬ (jsWs c1 ∨ c1 = '/' ∨ c1 = '$' ∨ c1 = '.' ∨ c1 = '?' ∨ c1 = '#') ∧
    ¬ isLineTerm c2 ∧ rest.all (fun c => ¬ jsWs c)
  | _ => false

/-- Extension deny-list of `LinkUtils.hasNonHtmlExtension`. -/
def nonHtmlExtensions : List String :=
  [".pdf", ".doc", ".docx", ".xls", ".xlsx", ".ppt", ".pptx",
   ".png", ".jpg", ".jpeg", ".gif", ".svg", ".webp", ".ico",
   ".mp3", ".mp4", ".avi", ".mov", ".wmv", ".flv",
   ".zip", ".rar", ".tar", ".gz", ".7z",
   ".txt", ".csv", ".xml", ".json",
   ".exe", ".dmg", ".pkg", ".deb", ".rpm"]

/-- Model of `LinkUtils.hasNonHtmlExtension`: drop the query string, lower
case, and test the suffixes. -/
def hasNonHtmlExtension (link : String) : Bool :=
  let urlPath := lowerStr (link.data.takeWhile (· ≠ '?'))
  nonHtmlExtensions.any (fun e => e.data.isSuffixOf urlPath)

/-- Model of `LinkUtils.isProcessed`. -/
def isProcessed (line : String) : Bool :=
  strStarts (jsTrim line) "- [x]"

/-- Model of `LinkUtils.markAsProcessed`. -/
def markAsProcessed (link : String) : String :=
  "- [x] " ++ link

end LinkUtils

/-- Try the image regex `!\[([^\]]*)\]\((?!https?:\/\/)([^)]*)\)` at the
head of the input ignoring the lookahead: returns the two captured groups
and the remaining characters. The greedy classes `[^\]]*` and `[^)]*`
cannot cross their closing bracket, so the match is deterministic. -/
def tryImg (l : List Char) : Option (List Char × List Char × List Char) :=
  match l with
  | '!' :: '[' :: r =>
    let alt := r.takeWhile (· ≠ ']')
    match r.dropWhile (· ≠ ']') with
    | ']' :: '(' :: r2 =>
      let target := r2.takeWhile (· ≠ ')')
      match r2.dropWhile (· ≠ ')') with
      | ')' :: rest => some (alt, target, rest)
      | _ => none
    | _ => none
  | _ => none

/-- The negative lookahead `(?!https?:\/\/)` of the image regex. -/
def httpTarget (t : List Char) : Bool :=
  "http://".data.isPrefixOf t || "https://".data.isPrefixOf t

/-- One segment of a body, as the image regex scanner sees it: a plain
character (not part of any match) or one matched image reference. -/
inductive ImgSeg where
  | txt (c : Char)
  | img (alt target : List Char)
deriving DecidableEq, Repr

/-- The regex-engine scan of `content.replace(imageRegex, ...)`: at each
position try the pattern; on a match (lookahead included) consume it whole,
otherwise move one character forward. Fuel is an upper bound on the number
of scan steps; it is called with the input length, which always suffices
since every step consumes at least one character. -/
def scanA : Nat → List Char → List ImgSeg
  | _, [] => []
  | 0, l => l.map .txt
  | fuel + 1, l@(c :: rest) =>
    match tryImg l with
    | some (alt, target, r2) =>
      if httpTarget target then .txt c :: scanA fuel rest
      else .img alt target :: scanA fuel r2
    | none => .txt c :: scanA fuel rest

/-- Original text of a segment. -/
def segText : ImgSeg → List Char
  | .txt c => [c]
  | .img alt target => '!' :: '[' :: alt ++ ']' :: '(' :: target ++ [')']

/-- Replacement text of a segment: the callback of `fixImagePaths` rewrites
a matched image to the resolved URL and keeps the match on resolution
failure; unmatched text is unchanged. -/
def renderSeg (base : String) : ImgSeg → List Char
  | .txt c => [c]
  | .img alt target =>
    match urlResolve (String.mk target) base with
    | some href => '!' :: '[' :: alt ++ ']' :: '(' :: href.data ++ [')']
    | none => '!' :: '[' :: alt ++ ']' :: '(' :: target ++ [')']

/-- Whether a segment is left untouched by the replacement callback: plain
text always is, and a matched image is when its resolution fails. -/
def segKept (base : String) : ImgSeg → Bool
  | .txt _ => true
  | .img _ target => (urlResolve (String.mk target) base).isNone

/-- Whether a segment respects the negative lookahead: plain text always
does, and a matched image never has an absolute `http(s)` target. -/
def segNonHttp : ImgSeg → Bool
  | .txt _ => true
  | .img _ target => ! httpTarget target

/-- Frontmatter value: the string or string-list values the code puts in
its frontmatter objects. -/
inductive FmVal where
  | s (v : String)
  | arr (vs : List String)
deriving DecidableEq, Repr

/-- The empty-value filter both serializations apply: empty strings and
empty arrays are dropped. -/
def isEmptyFm : FmVal → Bool
  | .s v => v = ""
  | .arr vs => vs.isEmpty

/-- Escape double quotes as the frontmatter renderer does
(`value.replace(/"/g, '\\"')`). -/
def escQ (v : String) : String :=
  String.mk ((v.data.map (fun c => if c = '"' then ['\\', '"'] else [c])).flatten)

/-- Render one frontmatter entry as a YAML-like line or block. -/
def renderFmEntry (kv : String × FmVal) : String :=
  match kv.2 with
  | .s v => kv.1 ++ ": \"" ++ escQ v ++ "\""
  | .arr vs => kv.1 ++ ":\n" ++ String.intercalate "\n" (vs.map (fun v => "  - " ++ v))

namespace FileUtils

/-- The ordered frontmatter object built inside `FileUtils.buildFrontmatter`
(defaults applied exactly as the `||` expressions do; `domain` is the empty
string when absent so that `domain ? ... : url` is the truthiness test). -/
def frontmatterPairs (title url domain author published description image
    favicon today : String) : List (String × FmVal) :=
  [("title", .s (if title = "" then "Untitled" else title)),
   ("source", .s (if domain ≠ "" then "https://" ++ domain else url)),
   ("url", .s url),
   ("author", .s author),
   ("published", .s published),
   ("clipped", .s today),
   ("tags", .arr ["clippings"]),
   ("description", .s description),
   ("image", .s image),
   ("favicon", .s favicon)]

/-- The filtered entry list `buildFrontmatter` renders: empty strings and
empty arrays are skipped. -/
def buildFrontmatterEntries (title url domain author published description
    image favicon today : String) : List (String × FmVal) :=
  (frontmatterPairs title url domain author published description image
    favicon today).filter (fun p => ¬ isEmptyFm p.2)

/-- Model of `FileUtils.buildFrontmatter`; the build date is the explicit
`today` argument. -/
def buildFrontmatter (title url domain author published description image
    favicon today : String) : String :=
  String.intercalate "\n"
    ((buildFrontmatterEntries title url domain author published description
      image favicon today).map renderFmEntry)

/-- Model of `FileUtils.buildMarkdownContent`. -/
def buildMarkdownContent (title url domain author published description
    image favicon content today : String) : String :=
  "---\n" ++
  buildFrontmatter title url domain author published description image favicon today ++
  "\n---\n# " ++ (if title = "" then "Untitled" else title) ++ "\n\n" ++ content

/-- The base-URL normalisation of `fixImagePaths`: when the base path does
not end in `/` and its last segment carries no dot, append a trailing
slash so relative references resolve inside the directory. -/
def normalizeImageBase (baseUrl : String) : String :=
  match urlParse baseUrl with
  | none => baseUrl
  | some u =>
    let lastSegment := (((splitCh '/' u.path.data).filter (· ≠ [])).getLast?).getD []
    if ¬ strEnds u.path "/" ∧ lastSegment ≠ [] ∧ ¬ lastSegment.contains '.'
    then urlHref { u with path := u.path ++ "/" }
    else baseUrl

/-- Model of `FileUtils.fixImagePaths`: normalise the base URL with the
directory heuristic, then replace every matched relative image reference
by its resolution against the normalised base. -/
def fixImagePaths (content baseUrl : String) : String :=
  String.mk (((scanA content.data.length content.data).map
    (renderSeg (normalizeImageBase baseUrl))).flatten)

/-- Model of `FileUtils.buildStubMarkdown`. -/
def buildStubMarkdown (title url today : String) : String :=
  let safeTitle := if title = "" then "Untitled Link" else title
  let domain := match urlParse url with
    | some u => u.host
    | none => ""
  let fm := buildFrontmatter safeTitle url domain "" "" "" "" "" today
  let body := "Content could not be extracted automatically.\n\nLink: " ++ url
  "---\n" ++ fm ++ "\n---\n# " ++ safeTitle ++ "\n\n" ++ body

/-- Result record of `FileUtils.buildYouTubeEmbed`. -/
structure YtEmbed where
  frontmatter : String
  frontmatterObj : List (String × FmVal)
  content : String
  body : String
  title : String
deriving DecidableEq, Repr

/-- Model of `FileUtils.buildYouTubeEmbed`. -/
def buildYouTubeEmbed (title url id today : String) : YtEmbed :=
  let safeTitle := if title = "" then "YouTube Video" else title
  let canonicalUrl := LinkUtils.canonicalizeYouTubeUrl url (some id)
  let thumbnailUrl := "https://img.youtube.com/vi/" ++ id ++ "/hqdefault.jpg"
  let frontmatterObj : List (String × FmVal) :=
    [("title", .s safeTitle),
     ("source", .s "https://youtube.com"),
     ("url", .s canonicalUrl),
     ("clipped", .s today),
     ("tags", .arr ["clippings", "youtube"]),
     ("image", .s thumbnailUrl)]
  let fm := buildFrontmatter safeTitle canonicalUrl "youtube.com" "" "" "" thumbnailUrl "" today
  let body := "![" ++ safeTitle ++ "](" ++ canonicalUrl ++ ")"
  let content := "---\n" ++ fm ++ "\n---\n# " ++ safeTitle ++ "\n\n" ++ body
  ⟨fm, frontmatterObj, content, body, safeTitle⟩

end FileUtils

namespace LinkProcessor

/-- Result of the Defuddle content extractor: the fields the code reads,
with the empty string standing for a JS-falsy (absent) field, and
`content` empty meaning the extraction-failure condition. -/
structure DefuddleRes where
  title : String := ""
  author : String := ""
  published : String := ""
  description : String := ""
  image : String := ""
  favicon : String := ""
  domain : String := ""
  content : String := ""
deriving DecidableEq, Repr

/-- Outcome of one puppeteer render attempt on a task URL: `crash` covers
every thrown error (navigation timeout, browser crash, page-evaluate
failure), `nonHtml` the non-HTML content-type skip, and `page` a rendered
document with its final (possibly redirected) URL. -/
inductive RenderOut where
  | crash
  | nonHtml
  | page (finalUrl : String) (res : DefuddleRes)
deriving DecidableEq, Repr

/-- Outcome of one direct `fetch` attempt on a task URL: `err` covers
network failure and non-OK HTTP status (both throw), `nonHtml` the
content-type skip, and `ok` a fetched document parsed by Defuddle. -/
inductive FetchOut where
  | err
  | nonHtml
  | ok (res : DefuddleRes)
deriving DecidableEq, Repr

/-- The ambient effects of one pipeline run: the two extraction strategies,
the best-effort YouTube oEmbed title lookup, and the current date. -/
structure Env where
  render : String → RenderOut
  fetchO : String → FetchOut
  ytTitle : String → Option String
  today : String

/-- Per-link result record of the two single-link processors. -/
structure LinkResult where
  updatedLink : String
  markdown : Option String
  frontmatter : Option (List (String × FmVal))
  body : Option String
deriving DecidableEq, Repr

/-- The skip result `{ updatedLink: line, markdown: returnMarkdown ? "" :
undefined }` shared by every classification-skip branch. -/
def skipResult (line : String) (returnMarkdown : Bool) : LinkResult :=
  ⟨line, if returnMarkdown then some "" else none, none, none⟩

/-- The ordered frontmatter object built in the processor after a
successful extraction (`frontmatterObj` in both single-link functions). -/
def frontmatterObjPairs (res : DefuddleRes) (url today : String) :
    List (String × FmVal) :=
  [("title", .s (if res.title = "" then "Untitled" else res.title)),
   ("source", .s (if res.domain ≠ "" then "https://" ++ res.domain else url)),
   ("url", .s url),
   ("author", .s res.author),
   ("published", .s res.published),
   ("clipped", .s today),
   ("tags", .arr ["clippings"]),
   ("description", .s res.description),
   ("image", .s res.image),
   ("favicon", .s res.favicon)]

/-- The processor's `cleanedFrontmatter`: the frontmatter object with empty
strings and empty arrays filtered out, used for the JSON response. -/
def cleanedFrontmatter (res : DefuddleRes) (url today : String) :
    List (String × FmVal) :=
  (frontmatterObjPairs res url today).filter (fun p => ¬ isEmptyFm p.2)

/-- Model of `LinkProcessor.buildFileContent` (the content argument is the
already image-rewritten body). -/
def buildFileContent (res : DefuddleRes) (url content today : String) : String :=
  FileUtils.buildMarkdownContent res.title url res.domain res.author
    res.published res.description res.image res.favicon content today

/-- The video-single branch shared by both single-link processors and the
batch classification loop. -/
def videoResult (env : Env) (task id : String) (returnMarkdown : Bool) : LinkResult :=
  let canonical := LinkUtils.canonicalizeYouTubeUrl task (some id)
  let ytTitle := (env.ytTitle canonical).getD ""
  let embed := FileUtils.buildYouTubeEmbed ytTitle canonical id env.today
  ⟨LinkUtils.markAsProcessed canonical,
   if returnMarkdown then some embed.content else none,
   some embed.frontmatterObj,
   some embed.body⟩

/-- The successful-extraction tail shared by both single-link processors:
rewrite image paths, build the cleaned frontmatter and the file content,
and mark the task processed. -/
def successResult (res : DefuddleRes) (task url : String) (returnMarkdown : Bool)
    (today : String) : LinkResult :=
  let content := FileUtils.fixImagePaths res.content url
  let cleaned := cleanedFrontmatter res url today
  let fileContent := buildFileContent res url content today
  ⟨LinkUtils.markAsProcessed task,
   if returnMarkdown then some fileContent else none,
   some cleaned,
   some content⟩

/-- The stub tail of the fetch processor's catch branch when `allowStub`
is set. -/
def stubResult (task : String) (returnMarkdown : Bool) (today : String) : LinkResult :=
  let stub := FileUtils.buildStubMarkdown "" task today
  ⟨LinkUtils.markAsProcessed task,
   if returnMarkdown then some stub else none,
   some [],
   some stub⟩

/-- Model of `LinkProcessor.processSingleLinkWithFetch`. -/
def processSingleLinkWithFetch (env : Env) (link : String) (returnMarkdown : Bool)
    (allowStub : Bool) : LinkResult :=
  let line := jsTrim link
  if LinkUtils.isProcessed line then skipResult line returnMarkdown
  else
    let task := LinkUtils.sanitizeLink line
    if ! LinkUtils.isValidHttpLink task then skipResult line returnMarkdown
    else
      let youtubeId := LinkUtils.getYouTubeId task
      if LinkUtils.ytTruthy youtubeId && ! LinkUtils.isYouTubeChannel task then
        videoResult env task (youtubeId.getD "") returnMarkdown
      else if LinkUtils.isBlockedDomain task then skipResult line returnMarkdown
      else if LinkUtils.hasNonHtmlExtension task then skipResult line returnMarkdown
      else
        let failTail :=
          if allowStub then stubResult task returnMarkdown env.today
          else skipResult line returnMarkdown
        match env.fetchO task with
        | .err => failTail
        | .nonHtml => skipResult line returnMarkdown
        | .ok res =>
          if res.content = "" then failTail
          else successResult res task task returnMarkdown env.today

/-- Model of `LinkProcessor.processSingleLinkWithPuppeteer`; every thrown
error inside the try block (including the extraction-failure throw) falls
back to the fetch processor with `allowStub` set. -/
def processSingleLinkWithPuppeteer (env : Env) (link : String)
    (returnMarkdown : Bool) : LinkResult :=
  let line := jsTrim link
  if LinkUtils.isProcessed line then skipResult line returnMarkdown
  else
    let task := LinkUtils.sanitizeLink line
    if ! LinkUtils.isValidHttpLink task then skipResult line returnMarkdown
    else
      let youtubeId := LinkUtils.getYouTubeId task
      if LinkUtils.ytTruthy youtubeId && ! LinkUtils.isYouTubeChannel task then
        videoResult env task (youtubeId.getD "") returnMarkdown
      else if LinkUtils.isBlockedDomain task then skipResult line returnMarkdown
      else if LinkUtils.hasNonHtmlExtension task then skipResult line returnMarkdown
      else
        match env.render task with
        | .crash => processSingleLinkWithFetch env link returnMarkdown true
        | .nonHtml => skipResult line returnMarkdown
        | .page finalUrl res =>
          if res.content = "" then processSingleLinkWithFetch env link returnMarkdown true
          else successResult res task finalUrl returnMarkdown env.today

/-- One structured JSON result entry `{ url, frontmatter, body }`. -/
structure JsonItem where
  url : String
  frontmatter : List (String × FmVal)
  body : String
deriving DecidableEq, Repr

/-- The three aggregate arrays a `processLinks` run fills. -/
structure ProcessOut where
  updatedLinks : List String
  markdownResults : List String
  jsonResults : List JsonItem
deriving DecidableEq, Repr

/-- Concatenation of aggregates (the arrays receive phase-one pushes before
the pending-queue drain pushes). -/
def ProcessOut.append (a b : ProcessOut) : ProcessOut :=
  ⟨a.updatedLinks ++ b.updatedLinks,
   a.markdownResults ++ b.markdownResults,
   a.jsonResults ++ b.jsonResults⟩

/-- JS truthiness of the guard `result.frontmatter && result.body` that
decides a JSON push: `undefined` and the empty string are falsy, the empty
object is truthy. -/
def jsonPushGuard (r : LinkResult) : Bool :=
  r.frontmatter.isSome && (match r.body with | some b => b != "" | none => false)

/-- Aggregate-array pushes performed after one single-link result. -/
def pushResult (returnMarkdown : Bool) (link : String) (r : LinkResult) : ProcessOut :=
  ⟨[r.updatedLink],
   if returnMarkdown then (match r.markdown with | some m => [m] | none => []) else [],
   if (! returnMarkdown) && jsonPushGuard r then
     [⟨link, r.frontmatter.getD [], (r.body.getD "")⟩]
   else []⟩

/-- Classification phase of the puppeteer branch of `processLinks`: one
step per input line, either pushing to the aggregates or deferring the
line to the pending queue. Note the video check precedes the URL-validity
check here, unlike in the single-link processors. -/
def classifyStep (env : Env) (returnMarkdown : Bool) (link : String) :
    ProcessOut ⊕ String :=
  let line := jsTrim link
  let task := LinkUtils.sanitizeLink line
  if LinkUtils.isProcessed line then .inl ⟨[line], [], []⟩
  else
    let youtubeId := LinkUtils.getYouTubeId task
    if LinkUtils.ytTruthy youtubeId && ! LinkUtils.isYouTubeChannel task then
      let canonical := LinkUtils.canonicalizeYouTubeUrl task youtubeId
      let ytTitle := (env.ytTitle canonical).getD ""
      let embed := FileUtils.buildYouTubeEmbed ytTitle canonical
        (youtubeId.getD "") env.today
      .inl ⟨[LinkUtils.markAsProcessed canonical],
            if returnMarkdown then [embed.content] else [],
            if returnMarkdown then [] else [⟨link, embed.frontmatterObj, embed.body⟩]⟩
    else if ! LinkUtils.isValidHttpLink task then .inl ⟨[line], [], []⟩
    else if LinkUtils.isBlockedDomain task then .inl ⟨[line], [], []⟩
    else if LinkUtils.hasNonHtmlExtension task then .inl ⟨[line], [], []⟩
    else .inr link

/-- First phase of the puppeteer branch over the whole batch: aggregates
from classification pushes, plus the pending queue in input order. -/
def classifyPhase (env : Env) (returnMarkdown : Bool) :
    List String → ProcessOut × List String
  | [] => (⟨[], [], []⟩, [])
  | link :: rest =>
    let (out, pending) := classifyPhase env returnMarkdown rest
    match classifyStep env returnMarkdown link with
    | .inl o => (o.append out, pending)
    | .inr p => (out, p :: pending)

/-- Pending-queue drain of the puppeteer branch: each deferred line goes
through the single-link puppeteer processor, in queue order. -/
def drainPhase (env : Env) (returnMarkdown : Bool) : List String → ProcessOut
  | [] => ⟨[], [], []⟩
  | link :: rest =>
    (pushResult returnMarkdown link
      (processSingleLinkWithPuppeteer env link returnMarkdown)).append
      (drainPhase env returnMarkdown rest)

/-- The jsdom branch of `processLinks`: every line goes straight through
the single-link fetch processor with `allowStub` unset. -/
def jsdomPhase (env : Env) (returnMarkdown : Bool) : List String → ProcessOut
  | [] => ⟨[], [], []⟩
  | link :: rest =>
    (pushResult returnMarkdown link
      (processSingleLinkWithFetch env link returnMarkdown false)).append
      (jsdomPhase env returnMarkdown rest)

/-- The configured extraction strategy (`config.ts` type `Parser`). -/
inductive Strategy where
  | puppeteer
  | jsdom
deriving DecidableEq, Repr

/-- Model of `LinkProcessor.processLinks`: the three aggregate arrays after
a full run (the browser handle lifecycle and disk writes are effects
outside the modelled state; a browser-initialization failure aborts the
whole run and returns nothing, so it is not a value of this function). -/
def processLinks (env : Env) (links : List String) (returnMarkdown : Bool)
    (parser : Strategy) : ProcessOut :=
  match parser with
  | .puppeteer =>
    let (out, pending) := classifyPhase env returnMarkdown links
    out.append (drainPhase env returnMarkdown pending)
  | .jsdom => jsdomPhase env returnMarkdown links

end LinkProcessor

namespace LavaServer

/-- Return formats of `config.ts` (`"md" | "json"`). -/
inductive ReturnFormat where
  | md
  | json
deriving DecidableEq, Repr

/-- The request's `returnFormat` resolution in `LavaServer.start`: more
than one link forces `json`; otherwise a valid requested format wins, else
the configured default. An absent or invalid request field is `none`. -/
def finalReturnFormat (links : List String) (requested : Option ReturnFormat)
    (cfg : ReturnFormat) : ReturnFormat :=
  if links.length > 1 then .json else requested.getD cfg

/-- The two response shapes of the `/api` handler. -/
inductive RespShape where
  | rawMarkdown
  | jsonBody
deriving DecidableEq, Repr

/-- The response-shape branch of `LavaServer.start`: raw markdown exactly
when the resolved format is `md` and exactly one link was requested. -/
def apiResponseShape (links : List String) (requested : Option ReturnFormat)
    (cfg : ReturnFormat) : RespShape :=
  if finalReturnFormat links requested cfg = .md ∧ links.length = 1
  then .rawMarkdown else .jsonBody

end LavaServer

/-- The mutually exclusive classification of one input line (spec section
on the Link Classifier). -/
inductive Classification where
  | processed
  | nonUrl
  | videoSingle
  | blockedDom
  | nonDocExt
  | eligible
deriving DecidableEq, Repr

/-- The classification order of the single-link processors
(`processSingleLinkWithPuppeteer` / `processSingleLinkWithFetch`):
already-processed, then URL validity, then video detection, then blocked
domain, then non-document extension. -/
def classifySingle (link : String) : Classification :=
  let line := jsTrim link
  if LinkUtils.isProcessed line then .processed
  else
    let task := LinkUtils.sanitizeLink line
    if ! LinkUtils.isValidHttpLink task then .nonUrl
    else if LinkUtils.ytTruthy (LinkUtils.getYouTubeId task) &&
        ! LinkUtils.isYouTubeChannel task then .videoSingle
    else if LinkUtils.isBlockedDomain task then .blockedDom
    else if LinkUtils.hasNonHtmlExtension task then .nonDocExt
    else .eligible

/-- The classification order of the batch loop in `processLinks`
(puppeteer branch): already-processed, then video detection, then URL
validity, then blocked domain, then non-document extension. -/
def classifyBatch (link : String) : Classification :=
  let line := jsTrim link
  let task := LinkUtils.sanitizeLink line
  if LinkUtils.isProcessed line then .processed
  else if LinkUtils.ytTruthy (LinkUtils.getYouTubeId task) &&
      ! LinkUtils.isYouTubeChannel task then .videoSingle
  else if ! LinkUtils.isValidHttpLink task then .nonUrl
  else if LinkUtils.isBlockedDomain task then .blockedDom
  else if LinkUtils.hasNonHtmlExtension task then .nonDocExt
  else .eligible

open LinkProcessor in
/-- Concrete oracle assignment in which every network effect fails: the
render strategy throws, the fetch strategy throws, and the YouTube title
lookup returns null. -/
def envAllFail : Env :=
  ⟨fun _ => .crash, fun _ => .err, fun _ => none, "2026-10-12"⟩

open LinkProcessor in
/-- Concrete oracle assignment in which rendering succeeds with a small
extracted document and the fetch strategy throws. -/
def envRenderOk : Env :=
  ⟨fun _ => .page "https://example.com/a" { content := "Body", title := "T" },
   fun _ => .err, fun _ => none, "2026-10-12"⟩

/-- C7: the video-single canonicalization maps the short-link, watch,
shorts, embed and live forms of the same video id to the single canonical
watch URL, and that canonical form (marked processed) is what the pipeline
writes back for such a line. -/
theorem C7_video_canonicalization :
    (LinkUtils.canonicalizeYouTubeUrl "https://youtu.be/abc123" none =
       "https://www.youtube.com/watch?v=abc123" ∧
     LinkUtils.canonicalizeYouTubeUrl "https://www.youtube.com/watch?v=abc123" none =
       "https://www.youtube.com/watch?v=abc123" ∧
     LinkUtils.canonicalizeYouTubeUrl "https://www.youtube.com/shorts/abc123" none =
       "https://www.youtube.com/watch?v=abc123" ∧
     LinkUtils.canonicalizeYouTubeUrl "https://www.youtube.com/embed/abc123" none =
       "https://www.youtube.com/watch?v=abc123" ∧
     LinkUtils.canonicalizeYouTubeUrl "https://www.youtube.com/live/abc123" none =
       "https://www.youtube.com/watch?v=abc123") ∧
    ((LinkProcessor.processSingleLinkWithFetch envAllFail
        "https://youtu.be/abc123" false false).updatedLink =
       "- [x] https://www.youtube.com/watch?v=abc123" ∧
     (LinkProcessor.processSingleLinkWithFetch envAllFail
        "https://www.youtube.com/watch?v=abc123" false false).updatedLink =
       "- [x] https://www.youtube.com/watch?v=abc123" ∧
     (LinkProcessor.processSingleLinkWithFetch envAllFail
        "https://www.youtube.com/shorts/abc123" false false).updatedLink =
       "- [x] https://www.youtube.com/watch?v=abc123" ∧
     (LinkProcessor.processSingleLinkWithPuppeteer envAllFail
        "https://www.youtube.com/embed/abc123" false).updatedLink =
       "- [x] https://www.youtube.com/watch?v=abc123" ∧
     (LinkProcessor.processSingleLinkWithPuppeteer envAllFail
        "https://www.youtube.com/live/abc123" false).updatedLink =
       "- [x] https://www.youtube.com/watch?v=abc123") := by
  decide

/-- C8: on the body `![alt](img/pic.png)`, image rewriting against the base
`https://example.com/blog/post` appends a directory slash (the last
segment has no dot) and yields the post-relative URL, while against
`https://example.com/blog/post.html` it resolves file-relative. -/
theorem C8_image_path_rewriting :
    FileUtils.fixImagePaths "![alt](img/pic.png)" "https://example.com/blog/post" =
      "![alt](https://example.com/blog/post/img/pic.png)" ∧
    FileUtils.fixImagePaths "![alt](img/pic.png)" "https://example.com/blog/post.html" =
      "![alt](https://example.com/blog/img/pic.png)" := by
  decide

/-- C9: a batch request with more than one link always gets the structured
JSON response shape, even when markdown is requested, and the raw-markdown
shape occurs only for a single-link request resolved to markdown mode. -/
theorem C9_multi_link_forces_json (links : List String)
    (requested : Option LavaServer.ReturnFormat) (cfg : LavaServer.ReturnFormat)
    (h : 1 < links.length) :
    LavaServer.apiResponseShape links requested cfg = .jsonBody ∧
    (∀ links2 req2 cfg2,
      LavaServer.apiResponseShape links2 req2 cfg2 = .rawMarkdown →
      links2.length = 1 ∧ LavaServer.finalReturnFormat links2 req2 cfg2 = .md) := by
  constructor
  · have hf : LavaServer.finalReturnFormat links requested cfg = .json := by
      simp [LavaServer.finalReturnFormat, h]
    simp [LavaServer.apiResponseShape, hf]
  · intro links2 req2 cfg2 hshape
    by_cases hc : LavaServer.finalReturnFormat links2 req2 cfg2 = .md ∧ links2.length = 1
    · exact ⟨hc.2, hc.1⟩
    · simp [LavaServer.apiResponseShape, hc] at hshape

/-- C9 witness: the forced-JSON rule at a concrete two-link request that
explicitly asks for markdown. -/
theorem C9_multi_link_forces_json_witness :
    1 < (["https://a.com/x", "https://b.com/y"] : List String).length ∧
    LavaServer.apiResponseShape ["https://a.com/x", "https://b.com/y"]
      (some .md) .md = .jsonBody := by
  refine ⟨by decide, ?_⟩
  exact (C9_multi_link_forces_json ["https://a.com/x", "https://b.com/y"]
    (some .md) .md (by decide)).1

/-- C1: concrete run showing the puppeteer branch does not preserve input
order. On the batch [eligible article line, already-processed line] the
already-processed line is pushed during classification and the article's
marker only during the pending-queue drain, so the entry at index 0 of the
returned markers belongs to input line 1: it is neither the first input
line unchanged nor its processed marker. -/
theorem C1_puppeteer_reorders_mixed_batch :
    (LinkProcessor.processLinks envRenderOk
      ["https://example.com/a", "- [x] done"] false .puppeteer).updatedLinks =
      ["- [x] done", "- [x] https://example.com/a"] ∧
    ((LinkProcessor.processLinks envRenderOk
      ["https://example.com/a", "- [x] done"] false .puppeteer).updatedLinks.headD ""
      ≠ (LinkProcessor.processSingleLinkWithPuppeteer envRenderOk
          "https://example.com/a" false).updatedLink) ∧
    ((LinkProcessor.processLinks envRenderOk
      ["https://example.com/a", "- [x] done"] false .puppeteer).updatedLinks.headD ""
      ≠ "https://example.com/a") ∧
    (LinkProcessor.processLinks envRenderOk
      ["https://example.com/a", "- [x] done"] false .jsdom).updatedLinks =
      ["https://example.com/a", "- [x] done"] := by
  decide

/-- C6 counterexample: a persisted markdown document built from an
extraction with an empty author does not contain an `author` field at all
(the empty-value filter sits inside `buildFrontmatter` itself), refuting
the claim that the on-disk frontmatter renders empty fields as `""`. -/
theorem C6_markdown_omits_empty_fields :
    strHasSub (FileUtils.buildMarkdownContent "T" "https://example.com/a"
      "" "" "" "" "" "" "Body" "2026-10-12") "author" = false ∧
    strHasSub (FileUtils.buildMarkdownContent "T" "https://example.com/a"
      "" "" "" "" "" "" "Body" "2026-10-12") "title: \"T\"" = true := by
  decide

/-- C6 (amended): both serializations drop empty fields through one and the
same filter: the frontmatter block rendered into the persisted markdown
file is exactly the rendering of the processor's cleaned (JSON) frontmatter
pairs, every surviving pair is non-empty, and every dropped pair was
empty. -/
theorem C6_both_serializations_omit_empty (res : LinkProcessor.DefuddleRes)
    (url today : String) :
    FileUtils.buildFrontmatter res.title url res.domain res.author res.published
      res.description res.image res.favicon today =
      String.intercalate "\n"
        ((LinkProcessor.cleanedFrontmatter res url today).map renderFmEntry) ∧
    (∀ kv ∈ LinkProcessor.cleanedFrontmatter res url today, isEmptyFm kv.2 = false) ∧
    (∀ kv ∈ LinkProcessor.frontmatterObjPairs res url today,
      kv ∉ LinkProcessor.cleanedFrontmatter res url today → isEmptyFm kv.2 = true) := by
  refine ⟨rfl, ?_, ?_⟩
  · intro kv hkv
    have := List.of_mem_filter hkv
    simpa using this
  · intro kv hkv hnot
    by_contra hne
    exact hnot (List.mem_filter.mpr ⟨hkv, by simpa using hne⟩)

theorem dropTrailWs_eq_rdropWhile (l : List Char) : dropTrailWs l = l.rdropWhile jsWs :=
  rfl

theorem jsTrim_data (s : String) :
    (jsTrim s).data = (s.data.dropWhile jsWs).rdropWhile jsWs :=
  rfl

theorem dropWhile_len_le (p : Char → Bool) (l : List Char) :
    (l.dropWhile p).length ≤ l.length := by
  induction l with
  | nil => simp
  | cons c t ih =>
    rw [List.dropWhile_cons]
    split
    · exact le_trans ih (by simp)
    · simp

theorem dropWhile_rdropWhile_fix (l : List Char) :
    ((l.dropWhile jsWs).rdropWhile jsWs).dropWhile jsWs =
      (l.dropWhile jsWs).rdropWhile jsWs := by
  set y := l.dropWhile jsWs with hy
  have hfix : y.dropWhile jsWs = y := by rw [hy]; exact List.dropWhile_idempotent jsWs l
  have hpre : y.rdropWhile jsWs <+: y := List.rdropWhile_prefix jsWs y
  rcases hpre with ⟨t, ht⟩
  cases hx : y.rdropWhile jsWs with
  | nil => simp
  | cons c cs =>
    rw [List.dropWhile_cons]
    have hyc : y = c :: (cs ++ t) := by rw [← ht, hx]; simp
    have hc : jsWs c = false := by
      by_contra hcc
      rw [Bool.not_eq_false] at hcc
      rw [hyc, List.dropWhile_cons, if_pos hcc] at hfix
      have hlen := congrArg List.length hfix
      rw [List.length_cons] at hlen
      have hle := dropWhile_len_le jsWs (cs ++ t)
      omega
    simp [hc]

theorem jsTrim_idem (s : String) : jsTrim (jsTrim s) = jsTrim s := by
  show String.mk (dropTrailWs ((jsTrim s).data.dropWhile jsWs)) = jsTrim s
  rw [jsTrim_data, dropTrailWs_eq_rdropWhile, dropWhile_rdropWhile_fix,
    List.rdropWhile_idempotent]
  rfl

theorem isProcessed_jsTrim (s : String) :
    LinkUtils.isProcessed (jsTrim s) = LinkUtils.isProcessed s := by
  unfold LinkUtils.isProcessed strStarts
  rw [jsTrim_idem]

theorem isPre_self_append (p r : List Char) : p.isPrefixOf (p ++ r) = true := by
  simp [List.isPrefixOf_iff_prefix]

theorem isProcessed_markAsProcessed (task : String) :
    LinkUtils.isProcessed (LinkUtils.markAsProcessed task) = true := by
  unfold LinkUtils.isProcessed LinkUtils.markAsProcessed strStarts
  have hdata : (("- [x] " ++ task)).data = "- [x] ".data ++ task.data := rfl
  rw [jsTrim_data, hdata]
  have hws : jsWs '-' = false := by decide
  have hhead : ("- [x] ".data ++ task.data).dropWhile jsWs
      = "- [x] ".data ++ task.data := by
    rw [List.cons_append, List.dropWhile_cons, hws]
    simp
  rw [hhead]
  unfold List.rdropWhile
  rw [List.reverse_append, List.dropWhile_append]
  split
  · have h1 : (("- [x] ".data).reverse).dropWhile jsWs = [']', 'x', '[', ' ', '-'] := by
      decide
    rw [h1]
    decide
  · rw [List.reverse_append, List.reverse_reverse]
    have h2 : "- [x] ".data ++ (task.data.reverse.dropWhile jsWs).reverse
        = "- [x]".data ++ (' ' :: (task.data.reverse.dropWhile jsWs).reverse) := rfl
    rw [h2]
    exact isPre_self_append _ _

theorem strData_append (a b : String) : (a ++ b).data = a.data ++ b.data :=
  rfl

theorem strContains_head (a t : String) : StrContains (a ++ t) a :=
  ⟨[], t.data, by simp [StrContains, strData_append]⟩

theorem strContains_tail (x y : String) : StrContains (x ++ y) y :=
  ⟨x.data, [], by simp [StrContains, strData_append]⟩

theorem strContains_appL (x : String) {s sub : String} (h : StrContains s sub) :
    StrContains (x ++ s) sub := by
  obtain ⟨a, b, hab⟩ := h
  exact ⟨x.data ++ a, b, by simp [strData_append, hab]⟩

theorem strContains_appR (y : String) {s sub : String} (h : StrContains s sub) :
    StrContains (s ++ y) sub := by
  obtain ⟨a, b, hab⟩ := h
  exact ⟨a, b ++ y.data, by simp [strData_append, hab]⟩

theorem jsdom_updatedLinks_map (env : LinkProcessor.Env) (rm : Bool)
    (links : List String) :
    (LinkProcessor.processLinks env links rm .jsdom).updatedLinks =
      links.map (fun l =>
        (LinkProcessor.processSingleLinkWithFetch env l rm false).updatedLink) := by
  show (LinkProcessor.jsdomPhase env rm links).updatedLinks = _
  induction links with
  | nil => rfl
  | cons l t ih =>
    simp [LinkProcessor.jsdomPhase, LinkProcessor.ProcessOut.append,
      LinkProcessor.pushResult, ih]

/-- C3 (amended): a task dispatched directly to the fetch strategy whose
fetch attempt fails (thrown error, non-OK HTTP status, or extraction with
no body) yields the trimmed input line as its updated marker, with no stub,
no frontmatter and no body; and in the jsdom batch the updated markers are
exactly the per-line fetch results in input order. The claim's "original
input line unchanged" holds only up to trimming: the processor returns
`link.trim()`, not the raw input line. -/
theorem C3_fetch_only_failure_unmarked (env : LinkProcessor.Env) (link : String)
    (rm : Bool)
    (hproc : LinkUtils.isProcessed (jsTrim link) = false)
    (hval : LinkUtils.isValidHttpLink (LinkUtils.sanitizeLink (jsTrim link)) = true)
    (hvid : (LinkUtils.ytTruthy (LinkUtils.getYouTubeId (LinkUtils.sanitizeLink (jsTrim link))) &&
      ! LinkUtils.isYouTubeChannel (LinkUtils.sanitizeLink (jsTrim link))) = false)
    (hblock : LinkUtils.isBlockedDomain (LinkUtils.sanitizeLink (jsTrim link)) = false)
    (hext : LinkUtils.hasNonHtmlExtension (LinkUtils.sanitizeLink (jsTrim link)) = false)
    (hfail : env.fetchO (LinkUtils.sanitizeLink (jsTrim link)) = .err ∨
      ∃ res, env.fetchO (LinkUtils.sanitizeLink (jsTrim link)) = .ok res ∧
        res.content = "") :
    LinkProcessor.processSingleLinkWithFetch env link rm false =
      LinkProcessor.skipResult (jsTrim link) rm ∧
    (LinkProcessor.processSingleLinkWithFetch env link rm false).updatedLink =
      jsTrim link ∧
    (LinkProcessor.processSingleLinkWithFetch env link rm false).frontmatter = none ∧
    (LinkProcessor.processSingleLinkWithFetch env link rm false).body = none ∧
    (∀ links : List String,
      (LinkProcessor.processLinks env links rm .jsdom).updatedLinks =
        links.map (fun l =>
          (LinkProcessor.processSingleLinkWithFetch env l rm false).updatedLink)) := by
  have hmain : LinkProcessor.processSingleLinkWithFetch env link rm false =
      LinkProcessor.skipResult (jsTrim link) rm := by
    rcases hfail with hferr | ⟨res, hfok, hcont⟩
    · simp [LinkProcessor.processSingleLinkWithFetch, hproc, hval, hvid, hblock,
        hext, hferr]
    · simp [LinkProcessor.processSingleLinkWithFetch, hproc, hval, hvid, hblock,
        hext, hfok, hcont]
  refine ⟨hmain, ?_, ?_, ?_, fun links => jsdom_updatedLinks_map env rm links⟩
  all_goals rw [hmain]; rfl

/-- C3 counterexample: with a failing fetch oracle, an input line carrying
surrounding whitespace comes back trimmed, not as the original input line,
so the claim's "original input line unchanged" is false as stated. -/
theorem C3_trimmed_not_original :
    (LinkProcessor.processSingleLinkWithFetch envAllFail
      " https://example.com/a " false false).updatedLink = "https://example.com/a" ∧
    (LinkProcessor.processSingleLinkWithFetch envAllFail
      " https://example.com/a " false false).updatedLink ≠ " https://example.com/a " ∧
    (LinkProcessor.processLinks envAllFail [" https://example.com/a "] false
      .jsdom).updatedLinks = ["https://example.com/a"] := by
  decide

/-- C3 witness: the amended theorem applied at a concrete failing fetch. -/
theorem C3_fetch_only_failure_unmarked_witness :
    LinkProcessor.processSingleLinkWithFetch envAllFail "https://example.com/b"
      true false = LinkProcessor.skipResult (jsTrim "https://example.com/b") true :=
  (C3_fetch_only_failure_unmarked envAllFail "https://example.com/b" true
    (by decide) (by decide) (by decide) (by decide) (by decide)
    (Or.inl rfl)).1

theorem fetchSingle_processed (env : LinkProcessor.Env) (l : String) (rm st : Bool)
    (h : LinkUtils.isProcessed l = true) :
    LinkProcessor.processSingleLinkWithFetch env l rm st =
      LinkProcessor.skipResult (jsTrim l) rm := by
  have hT : LinkUtils.isProcessed (jsTrim l) = true := (isProcessed_jsTrim l).trans h
  simp [LinkProcessor.processSingleLinkWithFetch, hT]

theorem puppeteerSingle_processed (env : LinkProcessor.Env) (l : String) (rm : Bool)
    (h : LinkUtils.isProcessed l = true) :
    LinkProcessor.processSingleLinkWithPuppeteer env l rm =
      LinkProcessor.skipResult (jsTrim l) rm := by
  have hT : LinkUtils.isProcessed (jsTrim l) = true := (isProcessed_jsTrim l).trans h
  simp [LinkProcessor.processSingleLinkWithPuppeteer, hT]

theorem classifyPhase_processed (env : LinkProcessor.Env) (rm : Bool)
    (links : List String) (h : ∀ l ∈ links, LinkUtils.isProcessed l = true) :
    LinkProcessor.classifyPhase env rm links = (⟨links.map jsTrim, [], []⟩, []) := by
  induction links with
  | nil => rfl
  | cons a t ih =>
    have ha : LinkUtils.isProcessed (jsTrim a) = true :=
      (isProcessed_jsTrim a).trans (h a (by simp))
    have iht := ih (fun l hl => h l (by simp [hl]))
    simp [LinkProcessor.classifyPhase, iht, LinkProcessor.classifyStep, ha,
      LinkProcessor.ProcessOut.append]

/-- C4 (amended): an already-processed line is inert on every path: both
single-link processors return the skip record built from the trimmed line,
independent of every oracle, with no frontmatter, no body and at most an
empty markdown placeholder; a batch of processed lines comes back as its
trimmed lines under both strategies, and when those lines are already
trimmed (as every line the pipeline itself emits on these paths is) the
second run returns the identical list. The claim's "returns that line
unchanged" holds only up to trimming. -/
theorem C4_processed_lines_inert (env : LinkProcessor.Env) (link : String)
    (rm st : Bool) (h : LinkUtils.isProcessed link = true) :
    LinkProcessor.processSingleLinkWithPuppeteer env link rm =
      LinkProcessor.skipResult (jsTrim link) rm ∧
    LinkProcessor.processSingleLinkWithFetch env link rm st =
      LinkProcessor.skipResult (jsTrim link) rm ∧
    (∀ (links : List String) (strat : LinkProcessor.Strategy),
      (∀ l ∈ links, LinkUtils.isProcessed l = true) →
      (LinkProcessor.processLinks env links rm strat).updatedLinks =
        links.map jsTrim ∧
      ((∀ l ∈ links, jsTrim l = l) →
        (LinkProcessor.processLinks env links rm strat).updatedLinks = links)) := by
  refine ⟨puppeteerSingle_processed env link rm h,
    fetchSingle_processed env link rm st h, ?_⟩
  intro links strat hall
  have hmap : (LinkProcessor.processLinks env links rm strat).updatedLinks =
      links.map jsTrim := by
    cases strat with
    | puppeteer =>
      show ((LinkProcessor.classifyPhase env rm links).1.append
        (LinkProcessor.drainPhase env rm (LinkProcessor.classifyPhase env rm links).2)).updatedLinks = _
      rw [classifyPhase_processed env rm links hall]
      simp [LinkProcessor.drainPhase, LinkProcessor.ProcessOut.append]
    | jsdom =>
      rw [jsdom_updatedLinks_map]
      refine List.map_congr_left ?_
      intro l hl
      rw [fetchSingle_processed env l rm false (hall l hl)]
      rfl
  refine ⟨hmap, fun htrim => ?_⟩
  rw [hmap]
  have : links.map jsTrim = links.map id := List.map_congr_left htrim
  rw [this, List.map_id]

/-- C4 counterexample: an already-processed line carrying surrounding
whitespace is returned trimmed, not unchanged, so the claim's "returns that
line unchanged" is false as stated. -/
theorem C4_processed_line_is_trimmed :
    (LinkProcessor.processSingleLinkWithPuppeteer envAllFail
      "  - [x] https://example.com  " false).updatedLink = "- [x] https://example.com" ∧
    (LinkProcessor.processSingleLinkWithPuppeteer envAllFail
      "  - [x] https://example.com  " false).updatedLink ≠ "  - [x] https://example.com  " := by
  decide

/-- C4 witness: a fully processed trimmed batch is returned identically on
a second run. -/
theorem C4_processed_lines_inert_witness :
    LinkUtils.isProcessed "- [x] https://example.com/a" = true ∧
    (LinkProcessor.processLinks envAllFail
      ["- [x] https://example.com/a", "- [x] https://example.com/b"] false
      .puppeteer).updatedLinks =
      ["- [x] https://example.com/a", "- [x] https://example.com/b"] := by
  refine ⟨by decide, ?_⟩
  have hmain := (C4_processed_lines_inert envAllFail "- [x] https://example.com/a"
    false false (by decide)).2.2
  exact (hmain ["- [x] https://example.com/a", "- [x] https://example.com/b"]
    .puppeteer (by decide)).2 (by decide)

theorem buildStub_decomp (title url today : String) :
    FileUtils.buildStubMarkdown title url today =
      ("---\n" ++ FileUtils.buildFrontmatter
          (if title = "" then "Untitled Link" else title) url
          (match urlParse url with | some u => u.host | none => "") "" "" "" "" "" today ++
        "\n---\n# " ++ (if title = "" then "Untitled Link" else title) ++ "\n\n") ++
      ("Content could not be extracted automatically.\n\nLink: " ++ url) :=
  rfl

theorem stub_contains_url (url today : String) :
    StrContains (FileUtils.buildStubMarkdown "" url today) url := by
  rw [buildStub_decomp]
  exact strContains_appL _ (strContains_tail _ _)

theorem stub_contains_phrase (url today : String) :
    StrContains (FileUtils.buildStubMarkdown "" url today)
      "Content could not be extracted automatically" := by
  rw [buildStub_decomp]
  apply strContains_appL
  have hsplit : ("Content could not be extracted automatically.\n\nLink: " : String) =
      "Content could not be extracted automatically" ++ ".\n\nLink: " := by decide
  rw [hsplit]
  exact strContains_appR _ (strContains_head _ _)

/-- C2: on a valid, non-video, non-blocked, non-extension-skipped task, a
thrown render attempt (or a render whose extraction yields no body) makes
the puppeteer processor delegate to exactly one fetch attempt with
stub-on-failure enabled; when that fetch attempt also fails, the result is
the stub record: its body is the stub document containing the literal
failing URL and the fixed explanatory phrase, and the updated marker is
the processed marker of the task, not the original line. -/
theorem C2_render_failure_fallback_stub (env : LinkProcessor.Env) (link : String)
    (rm : Bool)
    (hproc : LinkUtils.isProcessed (jsTrim link) = false)
    (hval : LinkUtils.isValidHttpLink (LinkUtils.sanitizeLink (jsTrim link)) = true)
    (hvid : (LinkUtils.ytTruthy (LinkUtils.getYouTubeId (LinkUtils.sanitizeLink (jsTrim link))) &&
      ! LinkUtils.isYouTubeChannel (LinkUtils.sanitizeLink (jsTrim link))) = false)
    (hblock : LinkUtils.isBlockedDomain (LinkUtils.sanitizeLink (jsTrim link)) = false)
    (hext : LinkUtils.hasNonHtmlExtension (LinkUtils.sanitizeLink (jsTrim link)) = false)
    (hrender : env.render (LinkUtils.sanitizeLink (jsTrim link)) = .crash ∨
      ∃ u res, env.render (LinkUtils.sanitizeLink (jsTrim link)) = .page u res ∧
        res.content = "")
    (hfail : env.fetchO (LinkUtils.sanitizeLink (jsTrim link)) = .err ∨
      ∃ res, env.fetchO (LinkUtils.sanitizeLink (jsTrim link)) = .ok res ∧
        res.content = "") :
    LinkProcessor.processSingleLinkWithPuppeteer env link rm =
      LinkProcessor.processSingleLinkWithFetch env link rm true ∧
    LinkProcessor.processSingleLinkWithPuppeteer env link rm =
      LinkProcessor.stubResult (LinkUtils.sanitizeLink (jsTrim link)) rm env.today ∧
    (LinkProcessor.processSingleLinkWithPuppeteer env link rm).updatedLink =
      LinkUtils.markAsProcessed (LinkUtils.sanitizeLink (jsTrim link)) ∧
    (LinkProcessor.processSingleLinkWithPuppeteer env link rm).body =
      some (FileUtils.buildStubMarkdown "" (LinkUtils.sanitizeLink (jsTrim link))
        env.today) ∧
    StrContains (FileUtils.buildStubMarkdown "" (LinkUtils.sanitizeLink (jsTrim link))
      env.today) (LinkUtils.sanitizeLink (jsTrim link)) ∧
    StrContains (FileUtils.buildStubMarkdown "" (LinkUtils.sanitizeLink (jsTrim link))
      env.today) "Content could not be extracted automatically" ∧
    LinkUtils.isProcessed
      (LinkProcessor.processSingleLinkWithPuppeteer env link rm).updatedLink = true ∧
    (LinkProcessor.processSingleLinkWithPuppeteer env link rm).updatedLink ≠ link := by
  have hpup : LinkProcessor.processSingleLinkWithPuppeteer env link rm =
      LinkProcessor.processSingleLinkWithFetch env link rm true := by
    rcases hrender with hc | ⟨u, res, hp, hcont⟩
    · simp [LinkProcessor.processSingleLinkWithPuppeteer, hproc, hval, hvid,
        hblock, hext, hc]
    · simp [LinkProcessor.processSingleLinkWithPuppeteer, hproc, hval, hvid,
        hblock, hext, hp, hcont]
  have hfet : LinkProcessor.processSingleLinkWithFetch env link rm true =
      LinkProcessor.stubResult (LinkUtils.sanitizeLink (jsTrim link)) rm env.today := by
    rcases hfail with hferr | ⟨res, hfok, hcont⟩
    · simp [LinkProcessor.processSingleLinkWithFetch, hproc, hval, hvid,
        hblock, hext, hferr]
    · simp [LinkProcessor.processSingleLinkWithFetch, hproc, hval, hvid,
        hblock, hext, hfok, hcont]
  have hres := hpup.trans hfet
  have hupd : (LinkProcessor.processSingleLinkWithPuppeteer env link rm).updatedLink =
      LinkUtils.markAsProcessed (LinkUtils.sanitizeLink (jsTrim link)) := by
    rw [hres]; rfl
  refine ⟨hpup, hres, hupd, by rw [hres]; rfl,
    stub_contains_url _ _, stub_contains_phrase _ _, ?_, ?_⟩
  · rw [hupd]; exact isProcessed_markAsProcessed _
  · intro heq
    have hT : LinkUtils.isProcessed link = true := by
      rw [← heq, hupd]; exact isProcessed_markAsProcessed _
    rw [← isProcessed_jsTrim link] at hT
    rw [hproc] at hT
    exact Bool.false_ne_true hT

/-- C2 witness: the fallback-stub theorem applied to a concrete task whose
render and fetch attempts both fail. -/
theorem C2_render_failure_fallback_stub_witness :
    LinkProcessor.processSingleLinkWithPuppeteer envAllFail
      "https://broken.example.com/page" true =
      LinkProcessor.stubResult "https://broken.example.com/page" true "2026-10-12" ∧
    StrContains (FileUtils.buildStubMarkdown "" "https://broken.example.com/page"
      "2026-10-12") "https://broken.example.com/page" := by
  have h := C2_render_failure_fallback_stub envAllFail
    "https://broken.example.com/page" true (by decide) (by decide) (by decide)
    (by decide) (by decide) (Or.inl rfl) (Or.inl rfl)
  refine ⟨?_, ?_⟩
  · have h2 := h.2.1
    rwa [show LinkUtils.sanitizeLink (jsTrim "https://broken.example.com/page") =
      "https://broken.example.com/page" from by decide] at h2
  · have h5 := h.2.2.2.2.1
    rwa [show LinkUtils.sanitizeLink (jsTrim "https://broken.example.com/page") =
      "https://broken.example.com/page" from by decide] at h5

/-- C5 (amended): exactly one classification applies to every line on each
path, but the two paths use different precedence orders. The single-link
processors test already-processed, then URL validity, then video, then
blocked domain, then extension; the batch loop of `processLinks` tests
video before URL validity. The characterizations below pin both orders,
and the correspondence clauses tie them to the processing functions. -/
theorem C5_classification_precedence (link : String) :
    ((classifySingle link = .processed ↔
        LinkUtils.isProcessed (jsTrim link) = true) ∧
     (classifySingle link = .nonUrl ↔
        LinkUtils.isProcessed (jsTrim link) = false ∧
        LinkUtils.isValidHttpLink (LinkUtils.sanitizeLink (jsTrim link)) = false) ∧
     (classifySingle link = .videoSingle ↔
        LinkUtils.isProcessed (jsTrim link) = false ∧
        LinkUtils.isValidHttpLink (LinkUtils.sanitizeLink (jsTrim link)) = true ∧
        (LinkUtils.ytTruthy (LinkUtils.getYouTubeId (LinkUtils.sanitizeLink (jsTrim link))) &&
          ! LinkUtils.isYouTubeChannel (LinkUtils.sanitizeLink (jsTrim link))) = true) ∧
     (classifySingle link = .blockedDom ↔
        LinkUtils.isProcessed (jsTrim link) = false ∧
        LinkUtils.isValidHttpLink (LinkUtils.sanitizeLink (jsTrim link)) = true ∧
        (LinkUtils.ytTruthy (LinkUtils.getYouTubeId (LinkUtils.sanitizeLink (jsTrim link))) &&
          ! LinkUtils.isYouTubeChannel (LinkUtils.sanitizeLink (jsTrim link))) = false ∧
        LinkUtils.isBlockedDomain (LinkUtils.sanitizeLink (jsTrim link)) = true) ∧
     (classifySingle link = .nonDocExt ↔
        LinkUtils.isProcessed (jsTrim link) = false ∧
        LinkUtils.isValidHttpLink (LinkUtils.sanitizeLink (jsTrim link)) = true ∧
        (LinkUtils.ytTruthy (LinkUtils.getYouTubeId (LinkUtils.sanitizeLink (jsTrim link))) &&
          ! LinkUtils.isYouTubeChannel (LinkUtils.sanitizeLink (jsTrim link))) = false ∧
        LinkUtils.isBlockedDomain (LinkUtils.sanitizeLink (jsTrim link)) = false ∧
        LinkUtils.hasNonHtmlExtension (LinkUtils.sanitizeLink (jsTrim link)) = true) ∧
     (classifySingle link = .eligible ↔
        LinkUtils.isProcessed (jsTrim link) = false ∧
        LinkUtils.isValidHttpLink (LinkUtils.sanitizeLink (jsTrim link)) = true ∧
        (LinkUtils.ytTruthy (LinkUtils.getYouTubeId (LinkUtils.sanitizeLink (jsTrim link))) &&
          ! LinkUtils.isYouTubeChannel (LinkUtils.sanitizeLink (jsTrim link))) = false ∧
        LinkUtils.isBlockedDomain (LinkUtils.sanitizeLink (jsTrim link)) = false ∧
        LinkUtils.hasNonHtmlExtension (LinkUtils.sanitizeLink (jsTrim link)) = false)) ∧
    ((classifyBatch link = .processed ↔
        LinkUtils.isProcessed (jsTrim link) = true) ∧
     (classifyBatch link = .videoSingle ↔
        LinkUtils.isProcessed (jsTrim link) = false ∧
        (LinkUtils.ytTruthy (LinkUtils.getYouTubeId (LinkUtils.sanitizeLink (jsTrim link))) &&
          ! LinkUtils.isYouTubeChannel (LinkUtils.sanitizeLink (jsTrim link))) = true) ∧
     (classifyBatch link = .nonUrl ↔
        LinkUtils.isProcessed (jsTrim link) = false ∧
        (LinkUtils.ytTruthy (LinkUtils.getYouTubeId (LinkUtils.sanitizeLink (jsTrim link))) &&
          ! LinkUtils.isYouTubeChannel (LinkUtils.sanitizeLink (jsTrim link))) = false ∧
        LinkUtils.isValidHttpLink (LinkUtils.sanitizeLink (jsTrim link)) = false) ∧
     (classifyBatch link = .blockedDom ↔
        LinkUtils.isProcessed (jsTrim link) = false ∧
        (LinkUtils.ytTruthy (LinkUtils.getYouTubeId (LinkUtils.sanitizeLink (jsTrim link))) &&
          ! LinkUtils.isYouTubeChannel (LinkUtils.sanitizeLink (jsTrim link))) = false ∧
        LinkUtils.isValidHttpLink (LinkUtils.sanitizeLink (jsTrim link)) = true ∧
        LinkUtils.isBlockedDomain (LinkUtils.sanitizeLink (jsTrim link)) = true) ∧
     (classifyBatch link = .nonDocExt ↔
        LinkUtils.isProcessed (jsTrim link) = false ∧
        (LinkUtils.ytTruthy (LinkUtils.getYouTubeId (LinkUtils.sanitizeLink (jsTrim link))) &&
          ! LinkUtils.isYouTubeChannel (LinkUtils.sanitizeLink (jsTrim link))) = false ∧
        LinkUtils.isValidHttpLink (LinkUtils.sanitizeLink (jsTrim link)) = true ∧
        LinkUtils.isBlockedDomain (LinkUtils.sanitizeLink (jsTrim link)) = false ∧
        LinkUtils.hasNonHtmlExtension (LinkUtils.sanitizeLink (jsTrim link)) = true) ∧
     (classifyBatch link = .eligible ↔
        LinkUtils.isProcessed (jsTrim link) = false ∧
        (LinkUtils.ytTruthy (LinkUtils.getYouTubeId (LinkUtils.sanitizeLink (jsTrim link))) &&
          ! LinkUtils.isYouTubeChannel (LinkUtils.sanitizeLink (jsTrim link))) = false ∧
        LinkUtils.isValidHttpLink (LinkUtils.sanitizeLink (jsTrim link)) = true ∧
        LinkUtils.isBlockedDomain (LinkUtils.sanitizeLink (jsTrim link)) = false ∧
        LinkUtils.hasNonHtmlExtension (LinkUtils.sanitizeLink (jsTrim link)) = false)) ∧
    (∀ (env : LinkProcessor.Env) (rm st : Bool),
      (classifySingle link = .processed ∨ classifySingle link = .nonUrl ∨
        classifySingle link = .blockedDom ∨ classifySingle link = .nonDocExt) →
      LinkProcessor.processSingleLinkWithFetch env link rm st =
        LinkProcessor.skipResult (jsTrim link) rm ∧
      LinkProcessor.processSingleLinkWithPuppeteer env link rm =
        LinkProcessor.skipResult (jsTrim link) rm) ∧
    (∀ (env : LinkProcessor.Env) (rm st : Bool),
      classifySingle link = .videoSingle →
      LinkProcessor.processSingleLinkWithFetch env link rm st =
        LinkProcessor.videoResult env (LinkUtils.sanitizeLink (jsTrim link))
          ((LinkUtils.getYouTubeId (LinkUtils.sanitizeLink (jsTrim link))).getD "") rm ∧
      LinkProcessor.processSingleLinkWithPuppeteer env link rm =
        LinkProcessor.videoResult env (LinkUtils.sanitizeLink (jsTrim link))
          ((LinkUtils.getYouTubeId (LinkUtils.sanitizeLink (jsTrim link))).getD "") rm) ∧
    (∀ (env : LinkProcessor.Env) (rm : Bool),
      (classifyBatch link = .eligible ↔
        LinkProcessor.classifyStep env rm link = .inr link)) ∧
    (∀ (env : LinkProcessor.Env) (rm : Bool),
      (classifyBatch link = .processed ∨ classifyBatch link = .nonUrl ∨
        classifyBatch link = .blockedDom ∨ classifyBatch link = .nonDocExt) →
      LinkProcessor.classifyStep env rm link = .inl ⟨[jsTrim link], [], []⟩) := by
  cases hA1 : LinkUtils.isProcessed (jsTrim link) <;>
    cases hA2 : LinkUtils.isValidHttpLink (LinkUtils.sanitizeLink (jsTrim link)) <;>
    cases hA3 : (LinkUtils.ytTruthy (LinkUtils.getYouTubeId (LinkUtils.sanitizeLink (jsTrim link))) &&
      ! LinkUtils.isYouTubeChannel (LinkUtils.sanitizeLink (jsTrim link))) <;>
    cases hA4 : LinkUtils.isBlockedDomain (LinkUtils.sanitizeLink (jsTrim link)) <;>
    cases hA5 : LinkUtils.hasNonHtmlExtension (LinkUtils.sanitizeLink (jsTrim link)) <;>
    simp [classifySingle, classifyBatch, LinkProcessor.classifyStep,
      LinkProcessor.processSingleLinkWithFetch,
      LinkProcessor.processSingleLinkWithPuppeteer, hA1, hA2, hA3, hA4, hA5]

/-- C5 counterexample: on the line `Https://youtu.be/a b` (upper-case
scheme, so the sanitizer falls back to the raw residue, which is an
invalid URL by the validity regex yet still parses as a YouTube video) the
batch loop classifies it a video and marks it processed, while the
single-link order classifies it non-URL and the jsdom pipeline leaves it
untouched: the batch loop does not evaluate the checks in the claimed
order. -/
theorem C5_batch_checks_video_before_validity :
    classifySingle "Https://youtu.be/a b" = .nonUrl ∧
    classifyBatch "Https://youtu.be/a b" = .videoSingle ∧
    (LinkProcessor.processLinks envAllFail ["Https://youtu.be/a b"] false
      .puppeteer).updatedLinks = ["- [x] https://www.youtube.com/watch?v=a%20b"] ∧
    (LinkProcessor.processLinks envAllFail ["Https://youtu.be/a b"] false
      .jsdom).updatedLinks = ["Https://youtu.be/a b"] := by
  decide

/-- C5 witness: the processed characterization of the amended theorem at a
concrete already-processed line. -/
theorem C5_classification_precedence_witness :
    classifySingle "- [x] https://example.com/a" = .processed :=
  (C5_classification_precedence "- [x] https://example.com/a").1.1.mpr (by decide)

theorem flatten_map_singleton (l : List Char) :
    (l.map (fun c => [c])).flatten = l := by
  induction l with
  | nil => rfl
  | cons c t ih => simp [ih]

theorem scanA_cons (fuel : Nat) (c : Char) (rest : List Char) :
    scanA (fuel + 1) (c :: rest) =
      match tryImg (c :: rest) with
      | some (alt, target, r2) =>
        if httpTarget target then ImgSeg.txt c :: scanA fuel rest
        else ImgSeg.img alt target :: scanA fuel r2
      | none => ImgSeg.txt c :: scanA fuel rest :=
  rfl

theorem scanA_cons_some (fuel : Nat) (c : Char) (rest alt target r2 : List Char)
    (h : tryImg (c :: rest) = some (alt, target, r2)) :
    scanA (fuel + 1) (c :: rest) =
      if httpTarget target then ImgSeg.txt c :: scanA fuel rest
      else ImgSeg.img alt target :: scanA fuel r2 := by
  rw [scanA_cons, h]

theorem scanA_cons_none (fuel : Nat) (c : Char) (rest : List Char)
    (h : tryImg (c :: rest) = none) :
    scanA (fuel + 1) (c :: rest) = ImgSeg.txt c :: scanA fuel rest := by
  rw [scanA_cons, h]

theorem tryImg_decomp (l : List Char) (a t r : List Char)
    (h : tryImg l = some (a, t, r)) : l = segText (.img a t) ++ r := by
  unfold tryImg at h
  split at h
  case _ r0 =>
    split at h
    case _ r2 heq2 =>
      split at h
      case _ rest heq3 =>
        injection h with h1
        injection h1 with ha h2
        injection h2 with ht hr
        subst ha; subst ht; subst hr
        have hr0 : r0 = (r0.takeWhile (· ≠ ']')) ++ (']' :: '(' :: r2) := by
          rw [← heq2]
          exact (List.takeWhile_append_dropWhile _ _).symm
        have hr2 : r2 = (r2.takeWhile (· ≠ ')')) ++ (')' :: rest) := by
          rw [← heq3]
          exact (List.takeWhile_append_dropWhile _ _).symm
        rw [segText]
        conv_lhs => rw [hr0, hr2]
        simp
      case _ => exact absurd h (by simp)
    case _ => exact absurd h (by simp)
  case _ => exact absurd h (by simp)

theorem scanA_lossless (fuel : Nat) (l : List Char) :
    (((scanA fuel l).map segText)).flatten = l := by
  induction fuel generalizing l with
  | zero =>
    cases l with
    | nil => rfl
    | cons c rest =>
      show ((((c :: rest).map ImgSeg.txt).map segText)).flatten = c :: rest
      rw [List.map_map]
      exact flatten_map_singleton (c :: rest)
  | succ fuel ih =>
    cases l with
    | nil => rfl
    | cons c rest =>
      cases htry : tryImg (c :: rest) with
      | none => rw [scanA_cons_none fuel c rest htry]; simp [segText, ih]
      | some v =>
        obtain ⟨alt, target, r2⟩ := v
        rw [scanA_cons_some fuel c rest alt target r2 htry]
        by_cases hhttp : httpTarget target = true
        · rw [if_pos hhttp]; simp [segText, ih]
        · rw [Bool.not_eq_true] at hhttp
          rw [if_neg (by simp [hhttp])]
          have hdec := tryImg_decomp (c :: rest) alt target r2 htry
          rw [List.map_cons, List.flatten_cons, ih r2, ← hdec]

theorem scanA_img_not_http (fuel : Nat) (l : List Char) :
    ∀ seg ∈ scanA fuel l, segNonHttp seg = true := by
  induction fuel generalizing l with
  | zero =>
    intro seg hseg
    cases l with
    | nil => simp [scanA] at hseg
    | cons c rest =>
      have hmem : seg ∈ (c :: rest).map ImgSeg.txt := hseg
      obtain ⟨x, _, hx⟩ := List.mem_map.mp hmem
      rw [← hx]; rfl
  | succ fuel ih =>
    intro seg hseg
    cases l with
    | nil => simp [scanA] at hseg
    | cons c rest =>
      cases htry : tryImg (c :: rest) with
      | none =>
        rw [scanA_cons_none fuel c rest htry] at hseg
        rcases List.mem_cons.mp hseg with hh | hh
        · rw [hh]; rfl
        · exact ih rest seg hh
      | some v =>
        obtain ⟨alt, target, r2⟩ := v
        rw [scanA_cons_some fuel c rest alt target r2 htry] at hseg
        by_cases hhttp : httpTarget target = true
        · rw [if_pos hhttp] at hseg
          rcases List.mem_cons.mp hseg with hh | hh
          · rw [hh]; rfl
          · exact ih rest seg hh
        · rw [Bool.not_eq_true] at hhttp
          rw [if_neg (by simp [hhttp])] at hseg
          rcases List.mem_cons.mp hseg with hh | hh
          · rw [hh]; simp [segNonHttp, hhttp]
          · exact ih r2 seg hh

/-- C10: the image rewriter is exactly a segmentation of the body into
plain characters and matched image references: the segmentation is
lossless (reassembling the original text of every segment gives back the
body character for character), no matched segment has an absolute
`http(s)` target (those stay plain text, hence unchanged), plain segments
render to themselves, a matched image whose resolution fails renders to
its original text, and a body whose matched images all fail to resolve
(or that has none) is returned unchanged. -/
theorem C10_fixImagePaths_frame (content baseUrl : String) :
    FileUtils.fixImagePaths content baseUrl =
      String.mk (((scanA content.data.length content.data).map
        (renderSeg (FileUtils.normalizeImageBase baseUrl))).flatten) ∧
    (((scanA content.data.length content.data).map segText)).flatten = content.data ∧
    (∀ seg ∈ scanA content.data.length content.data, segNonHttp seg = true) ∧
    (∀ c, renderSeg (FileUtils.normalizeImageBase baseUrl) (.txt c) = [c]) ∧
    (∀ seg, segKept (FileUtils.normalizeImageBase baseUrl) seg = true →
      renderSeg (FileUtils.normalizeImageBase baseUrl) seg = segText seg) ∧
    ((∀ seg ∈ scanA content.data.length content.data,
        segKept (FileUtils.normalizeImageBase baseUrl) seg = true) →
      FileUtils.fixImagePaths content baseUrl = content) := by
  have hkept : ∀ seg, segKept (FileUtils.normalizeImageBase baseUrl) seg = true →
      renderSeg (FileUtils.normalizeImageBase baseUrl) seg = segText seg := by
    intro seg hs
    cases seg with
    | txt c => rfl
    | img alt target =>
      have : (urlResolve (String.mk target) (FileUtils.normalizeImageBase baseUrl)).isNone
          = true := hs
      rw [Option.isNone_iff_eq_none] at this
      simp [renderSeg, this, segText]
  refine ⟨rfl, scanA_lossless _ _, scanA_img_not_http _ _, fun c => rfl, hkept, ?_⟩
  intro hall
  have hmap : (scanA content.data.length content.data).map
      (renderSeg (FileUtils.normalizeImageBase baseUrl)) =
      (scanA content.data.length content.data).map segText :=
    List.map_congr_left (fun seg hseg => hkept seg (hall seg hseg))
  show String.mk _ = content
  rw [hmap, scanA_lossless]

/-- C10 witness: a body whose single image reference cannot be resolved
(the base is not a URL) is returned character for character unchanged. -/
theorem C10_fixImagePaths_frame_witness :
    FileUtils.fixImagePaths "pre ![a](b) post" "notaurl" = "pre ![a](b) post" :=
  (C10_fixImagePaths_frame "pre ![a](b) post" "notaurl").2.2.2.2.2 (by decide)

/-- C6 witness: the shared-filter equation of the amended theorem at a
concrete extraction result with empty optional fields. -/
theorem C6_both_serializations_omit_empty_witness :
    FileUtils.buildFrontmatter "T" "https://example.com/a" "" "" "" "" "" ""
      "2026-10-12" =
      String.intercalate "\n"
        ((LinkProcessor.cleanedFrontmatter { title := "T" } "https://example.com/a"
          "2026-10-12").map renderFmEntry) :=
  (C6_both_serializations_omit_empty { title := "T" } "https://example.com/a"
    "2026-10-12").1
